import Mathlib

/-!
Verification of the data-ingestion pipeline (`src/data_ingestion.py`).

The development shallowly embeds the script's pure data transformations:
the URL rewriting in `load_data`, the pandas column operations in
`preprocess_data` (drop with mandatory labels, rename ignoring missing
labels), sklearn's `train_test_split` size arithmetic and seeded shuffle,
the YAML parameter lookup in `main`, the file writes of `save_data`, and
the orchestration / error-swallowing structure of `main`.  Effects
(file system, network) are modelled by passing their results explicitly.
-/

/-- One left-to-right, non-overlapping replacement pass over a character
list, as Python's `str.replace` performs: at each position, if the pattern
is a prefix, emit the replacement and skip the pattern, else keep the
character.  `fuel` bounds the recursion; `fuel = length of the list`
always suffices because every step consumes at least one character. -/
def pyReplaceAux (pat repl : List Char) : Nat → List Char → List Char
  | 0, s => s
  | _ + 1, [] => []
  | fuel + 1, c :: rest =>
    if pat.isPrefixOf (c :: rest) then
      repl ++ pyReplaceAux pat repl fuel ((c :: rest).drop pat.length)
    else
      c :: pyReplaceAux pat repl fuel rest

/-- Python's `s.replace(pat, repl)` for a non-empty pattern (the script
only uses the non-empty patterns `"blob/"` and `"github.com"`; Python's
interleaving behaviour on an empty pattern is not needed and the empty
pattern is mapped to the identity). -/
def pyReplace (s pat repl : String) : String :=
  if pat.data.isEmpty then s
  else ⟨pyReplaceAux pat.data repl.data s.data.length s.data⟩

/-- Substring occurrence on character lists: `pat` occurs contiguously. -/
def listContains (pat : List Char) : List Char → Bool
  | [] => pat.isEmpty
  | c :: rest => pat.isPrefixOf (c :: rest) || listContains pat rest

/-- Python's substring test `sub in s`. -/
def strContains (s sub : String) : Bool :=
  listContains sub.data s.data

/-- The URL actually fetched by `load_data` (`data_ingestion.py:58-59`):
when the URL mentions `github.com` and does not mention `raw` anywhere, it
is rewritten by `url.replace("blob/", "").replace("github.com",
"raw.githubusercontent.com")`; otherwise it is fetched unchanged. -/
def load_data_url (data_url : String) : String :=
  if strContains data_url "github.com" && !(strContains data_url "raw") then
    pyReplace (pyReplace data_url "blob/" "") "github.com" "raw.githubusercontent.com"
  else
    data_url

/-- The hard-coded source URL of `main` (`data_ingestion.py:110`). -/
def mainDataUrl : String :=
  "https://github.com/vikashishere/YT-MLOPS-Complete-ML-Pipeline/blob/main/experiments/spam.csv"

/-- C1: `load_data` rewrites a `github.com` URL without `"raw"` by removing
every occurrence of `"blob/"` and then replacing `"github.com"` with
`"raw.githubusercontent.com"`; any URL containing `"raw"`, or not
containing `"github.com"`, is fetched unchanged. -/
theorem load_data_url_spec (url : String) :
    (strContains url "github.com" = true → strContains url "raw" = false →
      load_data_url url =
        pyReplace (pyReplace url "blob/" "") "github.com" "raw.githubusercontent.com")
    ∧ (strContains url "raw" = true ∨ strContains url "github.com" = false →
      load_data_url url = url) := by
  constructor
  · intro hg hr
    simp [load_data_url, hg, hr]
  · intro h
    rcases h with h | h <;> simp [load_data_url, h]

/-- C1 witness: the script's own URL is rewritten to its raw-content form,
and a URL already containing `raw` passes through unchanged. -/
theorem load_data_url_spec_witness :
    load_data_url mainDataUrl =
      "https://raw.githubusercontent.com/vikashishere/YT-MLOPS-Complete-ML-Pipeline/main/experiments/spam.csv"
    ∧ load_data_url "https://raw.githubusercontent.com/a/b.csv" =
      "https://raw.githubusercontent.com/a/b.csv" :=
  ⟨((load_data_url_spec mainDataUrl).1 (by decide) (by decide)).trans (by decide),
   (load_data_url_spec "https://raw.githubusercontent.com/a/b.csv").2 (Or.inl (by decide))⟩

/-- A pandas `DataFrame`, column-major: an ordered list of named columns
(each a list of cell values) together with the number of rows `nrows`
(pandas keeps the row index, and hence the row count, even when every
column is dropped). -/
structure DF where
  nrows : Nat
  cols : List (String × List String)
deriving DecidableEq

/-- The column labels, in order. -/
def colNames (df : DF) : List String :=
  df.cols.map Prod.fst

/-- A well-formed (rectangular) frame: every column has `nrows` cells. -/
def DF.WF (df : DF) : Prop :=
  ∀ c ∈ df.cols, c.2.length = df.nrows

/-- pandas `df.drop(columns=names)` with the default `errors="raise"`:
raises `KeyError` if any requested label is absent, otherwise removes
every column carrying one of the labels.  The row index (and so `nrows`)
is untouched. -/
def dropColumns (df : DF) (names : List String) : Except String DF :=
  if ∀ n ∈ names, n ∈ colNames df then
    .ok ⟨df.nrows, df.cols.filter (fun c => decide (c.1 ∉ names))⟩
  else
    .error "KeyError"

/-- Relabel one column entry through a rename mapping; cell values are
never touched. -/
def renameEntry (m : List (String × String)) (c : String × List String) :
    String × List String :=
  match m.lookup c.1 with
  | some n => (n, c.2)
  | none => c

/-- What a rename mapping does to a single label. -/
def renameName (m : List (String × String)) (n : String) : String :=
  (m.lookup n).getD n

/-- pandas `df.rename(columns=m)` with the default `errors="ignore"`:
labels found in the mapping are replaced, labels not in the mapping (and
mapping keys absent from the frame) are silently left alone. -/
def renameCols (m : List (String × String)) (df : DF) : DF :=
  ⟨df.nrows, df.cols.map (renameEntry m)⟩

/-- The three columns dropped by `preprocess_data` (`data_ingestion.py:74`). -/
def unnamedCols : List String :=
  ["Unnamed: 2", "Unnamed: 3", "Unnamed: 4"]

/-- The rename mapping of `preprocess_data` (`data_ingestion.py:75`). -/
def renameMap : List (String × String) :=
  [("v1", "target"), ("v2", "text")]

/-- `preprocess_data` (`data_ingestion.py:71-83`): drop the three
`Unnamed` columns (raising `KeyError` when one is missing), then rename
`v1` to `target` and `v2` to `text`. -/
def preprocess_data (df : DF) : Except String DF :=
  match dropColumns df unnamedCols with
  | .error e => .error e
  | .ok d => .ok (renameCols renameMap d)

/-- Does an `Except` hold an error? -/
def isErr {ε α : Type} : Except ε α → Bool
  | .error _ => true
  | .ok _ => false

/-- The column labels of a successful result (junk `[]` on an error). -/
def okCols (r : Except String DF) : List String :=
  match r with
  | .ok d => colNames d
  | .error _ => []

/-- C2 (amended): `preprocess_data` raises `KeyError` exactly when one of
the three `Unnamed` columns is absent; the rename step never raises, so a
missing `v1` or `v2` alone does not make the call fail. -/
theorem preprocess_error_iff_unnamed_missing (df : DF) :
    preprocess_data df = .error "KeyError" ↔ ¬ (∀ n ∈ unnamedCols, n ∈ colNames df) := by
  unfold preprocess_data dropColumns
  by_cases h : ∀ n ∈ unnamedCols, n ∈ colNames df
  · rw [if_pos h]; simpa using h
  · rw [if_neg h]; simpa using h

/-- A frame holding the three `Unnamed` columns and `v2`, but no `v1`. -/
def dfNoV1 : DF :=
  ⟨1, [("Unnamed: 2", ["x"]), ("Unnamed: 3", ["y"]), ("Unnamed: 4", ["z"]),
       ("v2", ["hello"])]⟩

/-- C2 counterexample: a table missing the referenced column `v1` is
processed without any error — `preprocess_data` returns a table instead
of raising. -/
theorem preprocess_missing_v1_ok :
    "v1" ∉ colNames dfNoV1 ∧ preprocess_data dfNoV1 = .ok ⟨1, [("text", ["hello"])]⟩ :=
  ⟨by decide, by rfl⟩

/-- The five column labels referenced by `preprocess_data`. -/
def fiveCols : List String :=
  ["v1", "v2", "Unnamed: 2", "Unnamed: 3", "Unnamed: 4"]

theorem preprocessErrorIff (df : DF) :
    preprocess_data df = .error "KeyError" ↔ ¬ (∀ n ∈ unnamedCols, n ∈ colNames df) := by
  unfold preprocess_data dropColumns
  by_cases h : ∀ n ∈ unnamedCols, n ∈ colNames df
  · rw [if_pos h]; simpa using h
  · rw [if_neg h]; simpa using h

theorem preprocess_ok_decomp {df df' : DF} (h : preprocess_data df = .ok df') :
    df'.nrows = df.nrows
    ∧ df'.cols = (df.cols.filter (fun c => decide (c.1 ∉ unnamedCols))).map
        (renameEntry renameMap) := by
  unfold preprocess_data at h
  rcases hmatch : dropColumns df unnamedCols with e | d
  · rw [hmatch] at h; cases h
  · rw [hmatch] at h
    simp only [Except.ok.injEq] at h
    unfold dropColumns at hmatch
    split_ifs at hmatch with hc
    · simp only [Except.ok.injEq] at hmatch
      rw [← h, ← hmatch]
      exact ⟨rfl, rfl⟩

theorem renameEntry_snd (m : List (String × String)) (c : String × List String) :
    (renameEntry m c).2 = c.2 := by
  unfold renameEntry
  cases m.lookup c.1 <;> rfl

theorem renameEntry_fst (m : List (String × String)) (c : String × List String) :
    (renameEntry m c).1 = renameName m c.1 := by
  unfold renameEntry renameName
  cases m.lookup c.1 <;> rfl

theorem renameName_cases (n : String) :
    renameName renameMap n = n ∨ renameName renameMap n = "target"
    ∨ renameName renameMap n = "text" := by
  by_cases h1 : n = "v1"
  · subst h1; right; left; rfl
  · by_cases h2 : n = "v2"
    · subst h2; right; right; rfl
    · left
      unfold renameName renameMap
      have b1 : (n == "v1") = false := by simpa using h1
      have b2 : (n == "v2") = false := by simpa using h2
      simp [List.lookup, b1, b2]

theorem colNames_filterCols (cols : List (String × List String)) (names : List String) :
    (cols.filter (fun c => decide (c.1 ∉ names))).map Prod.fst
      = (cols.map Prod.fst).filter (fun n => decide (n ∉ names)) := by
  simp only [decide_not]
  induction cols with
  | nil => rfl
  | cons c cs ih =>
    by_cases hc : c.1 ∈ names <;> simp [List.filter_cons, hc, ih]

/-- C3 (amended): on any table containing the five referenced columns,
`preprocess_data` succeeds and returns the table's columns minus the three
`Unnamed` ones, with `v1` renamed to `target` and `v2` to `text` (order
preserved); when the table's columns are moreover exactly the five (no
duplicates, no extras), exactly two columns remain, a permutation of
`target`, `text`. -/
theorem preprocess_five_columns (df : DF)
    (hfive : ∀ n ∈ fiveCols, n ∈ colNames df) :
    isErr (preprocess_data df) = false
    ∧ okCols (preprocess_data df) =
        ((colNames df).filter (fun n => decide (n ∉ unnamedCols))).map
          (renameName renameMap)
    ∧ ((colNames df).Nodup → (∀ n ∈ colNames df, n ∈ fiveCols) →
        List.Perm (okCols (preprocess_data df)) ["target", "text"]
        ∧ (okCols (preprocess_data df)).length = 2) := by
  have hdrop : ∀ n ∈ unnamedCols, n ∈ colNames df := by
    intro n hn
    apply hfive
    simp only [unnamedCols, List.mem_cons, List.not_mem_nil, or_false] at hn
    rcases hn with rfl | rfl | rfl <;> simp [fiveCols]
  rcases hok : preprocess_data df with e | df'
  · exact absurd ((preprocessErrorIff df).mp (by
      unfold preprocess_data at hok ⊢
      rcases hd : dropColumns df unnamedCols with e2 | d
      · unfold dropColumns at hd
        rw [if_pos hdrop] at hd
        cases hd
      · rw [hd] at hok; cases hok)) (by simpa using hdrop)
  · obtain ⟨hn, hcols⟩ := preprocess_ok_decomp hok
    have hnames : colNames df' =
        ((colNames df).filter (fun n => decide (n ∉ unnamedCols))).map
          (renameName renameMap) := by
      unfold colNames
      rw [hcols, List.map_map]
      have h1 : ∀ c ∈ df.cols.filter (fun c => decide (c.1 ∉ unnamedCols)),
          (Prod.fst ∘ renameEntry renameMap) c = (renameName renameMap ∘ Prod.fst) c := by
        intro c _
        exact renameEntry_fst renameMap c
      rw [List.map_congr_left h1, ← List.map_map, colNames_filterCols]
    refine ⟨rfl, hnames, ?_⟩
    intro hnd hsub
    have hperm : List.Perm (colNames df) fiveCols := by
      refine (List.subperm_of_subset hnd ?_).antisymm (List.subperm_of_subset (by decide) ?_)
      · intro a ha; exact hsub a ha
      · intro a ha; exact hfive a ha
    have hfilter : List.Perm ((colNames df).filter (fun n => decide (n ∉ unnamedCols)))
        ["v1", "v2"] := by
      have := hperm.filter (fun n => decide (n ∉ unnamedCols))
      simpa [fiveCols, unnamedCols] using this
    have hres : List.Perm (colNames df') ["target", "text"] := by
      rw [hnames]
      simpa using hfilter.map (renameName renameMap)
    exact ⟨hres, hres.length_eq⟩

/-- A canonical five-column, two-row raw table. -/
def dfFive : DF :=
  ⟨2, [("v1", ["ham", "spam"]), ("v2", ["hi", "win $$"]),
       ("Unnamed: 2", ["", ""]), ("Unnamed: 3", ["", ""]), ("Unnamed: 4", ["", ""])]⟩

/-- C3 witness: the canonical five-column table is processed successfully
and ends up with exactly the columns `target`, `text`. -/
theorem preprocess_five_columns_witness :
    isErr (preprocess_data dfFive) = false
    ∧ List.Perm (okCols (preprocess_data dfFive)) ["target", "text"]
    ∧ (okCols (preprocess_data dfFive)).length = 2 :=
  ⟨(preprocess_five_columns dfFive (by decide)).1,
   (preprocess_five_columns dfFive (by decide)).2.2 (by decide) (by decide)⟩

/-- A table with the five referenced columns plus one extra column. -/
def dfExtra : DF :=
  ⟨1, [("v1", ["ham"]), ("v2", ["msg"]), ("Unnamed: 2", [""]),
       ("Unnamed: 3", [""]), ("Unnamed: 4", [""]), ("extra", ["e"])]⟩

/-- C3 counterexample: a table containing the five referenced columns plus
an extra one is accepted, but three columns remain, not exactly two. -/
theorem preprocess_extra_column_not_two :
    (fiveCols.all fun n => decide (n ∈ colNames dfExtra)) = true
    ∧ okCols (preprocess_data dfExtra) = ["target", "text", "extra"]
    ∧ (okCols (preprocess_data dfExtra)).length = 3 :=
  ⟨by decide, by rfl, by rfl⟩

/-- C7: a second application of `preprocess_data` to the result of a first
successful application always raises `KeyError`: the first application
removed every `Unnamed` column and cannot have reintroduced one. -/
theorem preprocess_not_idempotent (df df' : DF)
    (h : preprocess_data df = .ok df') :
    preprocess_data df' = .error "KeyError" := by
  obtain ⟨-, hcols⟩ := preprocess_ok_decomp h
  rw [preprocessErrorIff]
  intro hall
  have hmem : "Unnamed: 2" ∈ colNames df' := hall "Unnamed: 2" (by decide)
  unfold colNames at hmem
  rw [hcols, List.map_map] at hmem
  rcases List.mem_map.mp hmem with ⟨c, hc, hcname⟩
  have hfst : renameName renameMap c.1 = "Unnamed: 2" := by
    rw [← renameEntry_fst]
    exact hcname
  have hnotun : c.1 ∉ unnamedCols := by
    simpa using (List.mem_filter.mp hc).2
  rcases renameName_cases c.1 with hcase | hcase | hcase
  · rw [hcase] at hfst
    exact hnotun (by rw [hfst]; decide)
  · rw [hcase] at hfst
    exact absurd hfst (by decide)
  · rw [hcase] at hfst
    exact absurd hfst (by decide)

/-- The result of preprocessing `dfFive`. -/
def dfFiveOut : DF :=
  ⟨2, [("target", ["ham", "spam"]), ("text", ["hi", "win $$"])]⟩

/-- C7 witness: preprocessing the already-preprocessed canonical table
raises `KeyError`. -/
theorem preprocess_not_idempotent_witness :
    preprocess_data dfFiveOut = .error "KeyError" :=
  preprocess_not_idempotent dfFive dfFiveOut (by rfl)

instance (df : DF) : Decidable df.WF :=
  inferInstanceAs (Decidable (∀ c ∈ df.cols, c.2.length = df.nrows))

/-- C9: a successful `preprocess_data` keeps the row count, keeps every
surviving column's cell values unchanged and in order, and carries the
`v1` and `v2` cell values over verbatim into the `target` and `text`
columns; rectangularity is preserved. -/
theorem preprocess_preserves_rows (df df' : DF) (vs1 vs2 : List String)
    (h : preprocess_data df = .ok df')
    (h1 : ("v1", vs1) ∈ df.cols) (h2 : ("v2", vs2) ∈ df.cols) :
    df'.nrows = df.nrows
    ∧ df'.cols.map Prod.snd
        = (df.cols.filter (fun c => decide (c.1 ∉ unnamedCols))).map Prod.snd
    ∧ ("target", vs1) ∈ df'.cols
    ∧ ("text", vs2) ∈ df'.cols
    ∧ (DF.WF df → DF.WF df') := by
  obtain ⟨hn, hcols⟩ := preprocess_ok_decomp h
  refine ⟨hn, ?_, ?_, ?_, ?_⟩
  · rw [hcols, List.map_map]
    exact List.map_congr_left (fun c _ => renameEntry_snd renameMap c)
  · rw [hcols]
    refine List.mem_map.mpr ⟨("v1", vs1), List.mem_filter.mpr ⟨h1, ?_⟩, rfl⟩
    show decide (("v1" : String) ∉ unnamedCols) = true
    decide
  · rw [hcols]
    refine List.mem_map.mpr ⟨("v2", vs2), List.mem_filter.mpr ⟨h2, ?_⟩, rfl⟩
    show decide (("v2" : String) ∉ unnamedCols) = true
    decide
  · intro hwf c' hc'
    rw [hcols] at hc'
    rcases List.mem_map.mp hc' with ⟨c, hcf, rfl⟩
    rw [renameEntry_snd, hn]
    exact hwf c (List.mem_filter.mp hcf).1

/-- C9 witness: on the canonical table, row count and the `v1`/`v2` cell
values survive into `target`/`text` of the (rectangular) result. -/
theorem preprocess_preserves_rows_witness :
    dfFiveOut.nrows = dfFive.nrows
    ∧ ("target", ["ham", "spam"]) ∈ dfFiveOut.cols
    ∧ ("text", ["hi", "win $$"]) ∈ dfFiveOut.cols
    ∧ DF.WF dfFiveOut :=
  ⟨(preprocess_preserves_rows dfFive dfFiveOut ["ham", "spam"] ["hi", "win $$"]
      (by rfl) (by decide) (by decide)).1,
   (preprocess_preserves_rows dfFive dfFiveOut ["ham", "spam"] ["hi", "win $$"]
      (by rfl) (by decide) (by decide)).2.2.1,
   (preprocess_preserves_rows dfFive dfFiveOut ["ham", "spam"] ["hi", "win $$"]
      (by rfl) (by decide) (by decide)).2.2.2.1,
   (preprocess_preserves_rows dfFive dfFiveOut ["ham", "spam"] ["hi", "win $$"]
      (by rfl) (by decide) (by decide)).2.2.2.2 (by decide)⟩

/-- Sort key of the seeded pseudo-random generator backing the shuffle
(a 32-bit Knuth multiplicative hash stands in for the library's Mersenne
Twister stream; any fixed seed-determined stream yields the same claims). -/
def prngKey (seed i : Nat) : Nat :=
  (2654435761 * (seed + i) + 1013904223) % 4294967296

/-- The shuffle order on row indices: by generator key, ties by index. -/
def shuffleOrder (seed : Nat) (i j : Nat) : Prop :=
  prngKey seed i < prngKey seed j ∨ (prngKey seed i = prngKey seed j ∧ i ≤ j)

instance (seed : Nat) : DecidableRel (shuffleOrder seed) := fun _ _ =>
  inferInstanceAs (Decidable (_ ∨ _))

/-- `rng.permutation(n)` of the seeded generator: `0, …, n-1` shuffled. -/
def shuffleIdx (seed n : Nat) : List Nat :=
  (List.range n).insertionSort (shuffleOrder seed)

/-- sklearn's test-partition size for a float `test_size` `f`:
`ceil(test_size * n_samples)`, computed here by ceiling division on the
reduced fraction so that it evaluates by kernel reduction; it equals
`⌈f * n⌉₊` for positive `f` (`nTestOf_eq_ceil` below). -/
def nTestOf (f : ℚ) (n : Nat) : Nat :=
  (f.num.toNat * n + f.den - 1) / f.den

/-- The row indices sent to the test partition: the first
`nTestOf f n` of the shuffled index sequence. -/
def testIndices (seed n : Nat) (f : ℚ) : List Nat :=
  (shuffleIdx seed n).take (nTestOf f n)

/-- The row indices sent to the train partition: the rest. -/
def trainIndices (seed n : Nat) (f : ℚ) : List Nat :=
  (shuffleIdx seed n).drop (nTestOf f n)

/-- sklearn `train_test_split(rows, test_size=f, random_state=seed)`:
rejects a float `test_size` outside `(0,1)`; with `train_size` left
`None`, the train partition receives the `n - ceil(f*n)` rows not chosen
for test, and an empty train partition is rejected with `ValueError`.
Returns `(train, test)`. -/
def train_test_splitModel {α : Type} (seed : Nat) (rows : List α) (f : ℚ) :
    Except String (List α × List α) :=
  if f ≤ 0 ∨ 1 ≤ f then .error "ValueError: test_size out of range"
  else if rows.length - nTestOf f rows.length = 0 then
    .error "ValueError: train set empty"
  else
    .ok ((trainIndices seed rows.length f).filterMap (fun i => rows[i]?),
         (testIndices seed rows.length f).filterMap (fun i => rows[i]?))

/-- `sklearn.utils.check_random_state`: an integer `random_state` seeds a
fresh generator; `None` falls back to the ambient global generator. -/
def check_random_state (ambient : Nat) (rs : Option Nat) : Nat :=
  rs.getD ambient

/-- `train_test_split` as called with an explicit `random_state` argument,
in the presence of an ambient global generator state. -/
def train_test_split_full {α : Type} (ambient : Nat) (rows : List α) (f : ℚ)
    (rs : Option Nat) : Except String (List α × List α) :=
  train_test_splitModel (check_random_state ambient rs) rows f

theorem shuffleIdx_perm (seed n : Nat) :
    List.Perm (shuffleIdx seed n) (List.range n) :=
  List.perm_insertionSort _ _

theorem filterMapIdx_length {α : Type} (rows : List α) (l : List Nat)
    (h : ∀ i ∈ l, i < rows.length) :
    (l.filterMap (fun i => rows[i]?)).length = l.length := by
  induction l with
  | nil => rfl
  | cons a as ih =>
    rw [List.filterMap_cons]
    rw [List.getElem?_eq_getElem (h a (List.mem_cons_self a as))]
    simp [ih (fun i hi => h i (List.mem_cons_of_mem a hi))]


theorem nTestOf_eq_ceil (f : ℚ) (hf : 0 < f) (n : Nat) :
    nTestOf f n = ⌈f * n⌉₊ := by
  have hq : 0 < f.den := f.pos
  have hnum : (0 : ℤ) ≤ f.num := (Rat.num_pos.mpr hf).le
  have hqQ : (0 : ℚ) < (f.den : ℚ) := by exact_mod_cast hq
  have hcast : ((f.num.toNat : ℕ) : ℚ) = (f.num : ℚ) := by
    exact_mod_cast congrArg (fun z : ℤ => (z : ℚ)) (Int.toNat_of_nonneg hnum)
  have key : ∀ m : Nat, nTestOf f n ≤ m ↔ ⌈f * (n : ℚ)⌉₊ ≤ m := by
    intro m
    rw [show nTestOf f n = (f.num.toNat * n) ⌈/⌉ f.den from
      (Nat.ceilDiv_eq_add_pred_div _ _).symm]
    rw [ceilDiv_le_iff_le_smul hq, smul_eq_mul, Nat.ceil_le]
    rw [← Nat.cast_le (α := ℚ)]
    push_cast
    rw [hcast]
    constructor
    · intro h
      rw [← Rat.num_div_den f, div_mul_eq_mul_div, div_le_iff₀ hqQ]
      nlinarith
    · intro h
      rw [← Rat.num_div_den f, div_mul_eq_mul_div, div_le_iff₀ hqQ] at h
      nlinarith
  exact le_antisymm ((key _).mpr le_rfl) ((key _).mp le_rfl)

/-- The rational 1/2, given in reduced form. -/
def oneHalf : ℚ := ⟨1, 2, by decide, by decide⟩

/-- The rational 1/5 (that is, 0.2), given in reduced form. -/
def oneFifth : ℚ := ⟨1, 5, by decide, by decide⟩

/-- C4 counterexample: on a 1-row table with test fraction 1/2 — a
fraction inside (0,1) — the split raises instead of yielding partitions:
`ceil(0.5 × 1) = 1` row goes to test, leaving the train partition empty,
which sklearn rejects with `ValueError`. -/
theorem split_one_row_raises :
    (oneHalf.num, oneHalf.den) = (1, 2)
    ∧ train_test_splitModel 2 ["only"] oneHalf
      = .error "ValueError: train set empty" :=
  ⟨rfl, rfl⟩

/-- C4 (amended): whenever the seeded split returns, its two partitions
come from disjoint index sets, their row counts sum to the table's row
count, and the test partition's count is within one row of `f × n`. -/
theorem split_counts {α : Type} (rows : List α) (f : ℚ) (train test : List α)
    (hok : train_test_splitModel 2 rows f = .ok (train, test)) :
    train.length + test.length = rows.length
    ∧ List.Disjoint (trainIndices 2 rows.length f) (testIndices 2 rows.length f)
    ∧ f * rows.length - 1 ≤ (test.length : ℚ)
    ∧ (test.length : ℚ) ≤ f * rows.length + 1 := by
  unfold train_test_splitModel at hok
  by_cases hf : f ≤ 0 ∨ 1 ≤ f
  · rw [if_pos hf] at hok; cases hok
  · rw [if_neg hf] at hok
    push_neg at hf
    by_cases hempty : rows.length - nTestOf f rows.length = 0
    · rw [if_pos hempty] at hok; cases hok
    · rw [if_neg hempty] at hok
      simp only [Except.ok.injEq, Prod.mk.injEq] at hok
      obtain ⟨htr, hte⟩ := hok
      have hceil : nTestOf f rows.length = ⌈f * (rows.length : ℚ)⌉₊ :=
        nTestOf_eq_ceil f hf.1 rows.length
      have hperm := shuffleIdx_perm 2 rows.length
      have hlen : (shuffleIdx 2 rows.length).length = rows.length :=
        hperm.length_eq.trans (List.length_range rows.length)
      have hmemlt : ∀ i ∈ shuffleIdx 2 rows.length, i < rows.length :=
        fun i hi => List.mem_range.mp (hperm.subset hi)
      have hnt_le : nTestOf f rows.length ≤ rows.length := by
        rw [hceil]
        refine Nat.ceil_le.mpr ?_
        calc f * (rows.length : ℚ) ≤ 1 * (rows.length : ℚ) :=
              mul_le_mul_of_nonneg_right hf.2.le (Nat.cast_nonneg _)
          _ = (rows.length : ℚ) := one_mul _
      have hteLen : test.length = nTestOf f rows.length := by
        rw [← hte]
        unfold testIndices
        rw [filterMapIdx_length rows _
            (fun i hi => hmemlt i (List.take_subset _ _ hi)),
          List.length_take, hlen]
        exact Nat.min_eq_left hnt_le
      have htrLen : train.length = rows.length - nTestOf f rows.length := by
        rw [← htr]
        unfold trainIndices
        rw [filterMapIdx_length rows _
            (fun i hi => hmemlt i (List.drop_subset _ _ hi)),
          List.length_drop, hlen]
      refine ⟨?_, ?_, ?_, ?_⟩
      · rw [hteLen, htrLen]
        omega
      · have hnd : (shuffleIdx 2 rows.length).Nodup :=
          hperm.nodup_iff.mpr (List.nodup_range rows.length)
        exact (List.disjoint_take_drop hnd le_rfl).symm
      · rw [hteLen, hceil]
        have := Nat.le_ceil (f * (rows.length : ℚ))
        linarith
      · rw [hteLen, hceil]
        have h0 : 0 ≤ f * (rows.length : ℚ) :=
          mul_nonneg hf.1.le (Nat.cast_nonneg _)
        have := Nat.ceil_lt_add_one h0
        linarith

/-- A ten-row table of row labels. -/
def tenRows : List String :=
  ["r0", "r1", "r2", "r3", "r4", "r5", "r6", "r7", "r8", "r9"]

/-- C4 witness: for the 10-row table with `test_size = 1/5 = 0.2`, the
split succeeds, the train partition has 8 rows, the test partition 2,
counts sum to 10, index sets are disjoint, and 2 is within one of
`0.2 × 10`. -/
theorem split_counts_witness :
    (oneFifth.num, oneFifth.den) = (1, 5)
    ∧ train_test_splitModel 2 tenRows oneFifth
      = .ok (["r6", "r3", "r8", "r0", "r5", "r2", "r7", "r4"], ["r9", "r1"])
    ∧ (8 : Nat) + 2 = tenRows.length
    ∧ List.Disjoint (trainIndices 2 tenRows.length oneFifth)
        (testIndices 2 tenRows.length oneFifth)
    ∧ oneFifth * tenRows.length - 1 ≤ ((2 : Nat) : ℚ)
    ∧ ((2 : Nat) : ℚ) ≤ oneFifth * tenRows.length + 1 :=
  ⟨rfl, by rfl,
   (split_counts tenRows oneFifth
      ["r6", "r3", "r8", "r0", "r5", "r2", "r7", "r4"] ["r9", "r1"] (by rfl)).1,
   (split_counts tenRows oneFifth
      ["r6", "r3", "r8", "r0", "r5", "r2", "r7", "r4"] ["r9", "r1"] (by rfl)).2.1,
   (split_counts tenRows oneFifth
      ["r6", "r3", "r8", "r0", "r5", "r2", "r7", "r4"] ["r9", "r1"] (by rfl)).2.2.1,
   (split_counts tenRows oneFifth
      ["r6", "r3", "r8", "r0", "r5", "r2", "r7", "r4"] ["r9", "r1"] (by rfl)).2.2.2⟩

/-- C5: with the literal `random_state=2`, the split's outcome does not
depend on the ambient global generator state, so two runs on the same
table and fraction produce identical train and test partitions; both
equal the pure seeded split with seed 2. -/
theorem split_deterministic {α : Type} (a1 a2 : Nat) (rows : List α) (f : ℚ) :
    train_test_split_full a1 rows f (some 2) = train_test_split_full a2 rows f (some 2)
    ∧ train_test_split_full a1 rows f (some 2) = train_test_splitModel 2 rows f :=
  ⟨rfl, rfl⟩

/-- A YAML value as produced by `yaml.safe_load`: a mapping, a number, a
string, or null. -/
inductive YVal where
  | dict (entries : List (String × YVal))
  | num (q : ℚ)
  | str (s : String)
  | null

/-- Python subscription `v[k]`: on a mapping, `KeyError` when the key is
absent; on any non-mapping value, `TypeError`. -/
def ySub (v : YVal) (k : String) : Except String YVal :=
  match v with
  | .dict es =>
    match es.lookup k with
    | some w => .ok w
    | none => .error "KeyError"
  | _ => .error "TypeError"

/-- `params['data_ingestion']['test_size']` (`data_ingestion.py:107`). -/
def extractTestSize (params : YVal) : Except String YVal :=
  match ySub params "data_ingestion" with
  | .error e => .error e
  | .ok d => ySub d "test_size"

/-- The `test_size` value as a number, as `train_test_split` requires. -/
def asNum (v : YVal) : Except String ℚ :=
  match v with
  | .num q => .ok q
  | _ => .error "TypeError"

/-- `os.path.join a b` for the relative path components used here. -/
def pathJoin (a b : String) : String :=
  a ++ "/" ++ b

/-- `save_data` (`data_ingestion.py:85-97`): make `<data_path>/raw`, then
write `train.csv`, then `test.csv`.  The outcome of each filesystem action
is passed in; the first component of the result lists the files actually
written (in order) before any failure, the second is the overall result.
Nothing is rolled back on failure. -/
def save_data (data_path : String)
    (mkdirResult writeTrainResult writeTestResult : Except String Unit) :
    List String × Except String Unit :=
  match mkdirResult with
  | .error e => ([], .error e)
  | .ok _ =>
    match writeTrainResult with
    | .error e => ([], .error e)
    | .ok _ =>
      match writeTestResult with
      | .error e => ([pathJoin (pathJoin data_path "raw") "train.csv"], .error e)
      | .ok _ =>
        ([pathJoin (pathJoin data_path "raw") "train.csv",
          pathJoin (pathJoin data_path "raw") "test.csv"], .ok ())

/-- The observable stages and reporting actions of one pipeline run. -/
inductive Event where
  | loadParams
  | loadData (url : String)
  | preprocessEv
  | splitEv
  | saveEv
  | logError (msg : String)
  | printError (msg : String)
deriving DecidableEq

/-- Is this event a `load_data` invocation (a network access)? -/
def Event.isLoadData : Event → Bool
  | .loadData _ => true
  | _ => false

/-- Results of the run's external effects, passed in explicitly: the
config read+parse, the network fetch, and the three filesystem actions of
`save_data`. -/
structure Env where
  paramsResult : Except String YVal
  fetchResult : Except String DF
  mkdirResult : Except String Unit
  writeTrainResult : Except String Unit
  writeTestResult : Except String Unit

/-- Trace prefix of a run that reached the fetch stage. -/
def traceFetch : List Event :=
  [.loadParams, .loadData (load_data_url mainDataUrl)]

/-- The save stage of `main`: `save_data(train, test, './data')`. -/
def stageSave (env : Env) : List Event × Except String Unit :=
  match save_data "./data" env.mkdirResult env.writeTrainResult env.writeTestResult with
  | (_, .error e) => (traceFetch ++ [.preprocessEv, .splitEv, .saveEv], .error e)
  | (_, .ok _) => (traceFetch ++ [.preprocessEv, .splitEv, .saveEv], .ok ())

/-- The split stage of `main`: `train_test_split(final_df, test_size,
random_state=2)` over the processed table's rows. -/
def stageSplit (env : Env) (finalDf : DF) (ts : ℚ) : List Event × Except String Unit :=
  match train_test_splitModel 2 (List.range finalDf.nrows) ts with
  | .error e => (traceFetch ++ [.preprocessEv, .splitEv], .error e)
  | .ok _ => stageSave env

/-- `test_size` must be a number once `train_test_split` consumes it. -/
def stageNum (env : Env) (tsVal : YVal) (finalDf : DF) : List Event × Except String Unit :=
  match asNum tsVal with
  | .error e => (traceFetch ++ [.preprocessEv, .splitEv], .error e)
  | .ok ts => stageSplit env finalDf ts

/-- The preprocessing stage of `main`. -/
def stagePre (env : Env) (tsVal : YVal) (df : DF) : List Event × Except String Unit :=
  match preprocess_data df with
  | .error e => (traceFetch ++ [.preprocessEv], .error e)
  | .ok finalDf => stageNum env tsVal finalDf

/-- The fetch stage of `main`: `load_data` on the (rewritten) URL. -/
def stageFetch (env : Env) (tsVal : YVal) : List Event × Except String Unit :=
  match env.fetchResult with
  | .error e => (traceFetch, .error e)
  | .ok df => stagePre env tsVal df

/-- After the config parsed: extract `data_ingestion.test_size`, then go
on to fetch (`data_ingestion.py:107-111`). -/
def afterParams (env : Env) (params : YVal) : List Event × Except String Unit :=
  match extractTestSize params with
  | .error e => ([.loadParams], .error e)
  | .ok tsVal => stageFetch env tsVal

/-- The body of `main`'s `try` block (`data_ingestion.py:103-120`): load
params, extract `test_size`, fetch (through the URL rewrite), preprocess,
split with `random_state=2`, save under `./data`.  Returns the events
that ran and the outcome reaching `main`'s handler; each stage's failure
aborts the rest. -/
def runPipeline (env : Env) : List Event × Except String Unit :=
  match env.paramsResult with
  | .error e => ([.loadParams], .error e)
  | .ok params => afterParams env params

/-- `main` (`data_ingestion.py:101-124`): run the pipeline; any exception
is caught, logged and printed, and `main` returns normally. -/
def Script.main (env : Env) : List Event × Except String Unit :=
  match runPipeline env with
  | (tr, .ok _) => (tr, .ok ())
  | (tr, .error e) => (tr ++ [.logError e, .printError e], .ok ())

/-- The process exit code: nonzero only if an exception escaped `main`. -/
def processExitCode (env : Env) : Nat :=
  match (Script.main env).2 with
  | .ok _ => 0
  | .error _ => 1

/-- The message of a failed result (junk `""` on success). -/
def errOf (r : Except String Unit) : String :=
  match r with
  | .error e => e
  | .ok _ => ""

/-- C6: if the config loads but `data_ingestion.test_size` cannot be
extracted, the run fails before any network access: the pipeline's
outcome is an error and no `load_data` event occurs in the run. -/
theorem missing_test_size_no_fetch (env : Env) (params : YVal)
    (hp : env.paramsResult = .ok params)
    (hmiss : isErr (extractTestSize params) = true) :
    isErr (runPipeline env).2 = true
    ∧ ((Script.main env).1.all (fun ev => !ev.isLoadData)) = true := by
  rcases hext : extractTestSize params with e | v
  · have hrp : runPipeline env = ([.loadParams], .error e) := by
      unfold runPipeline
      rw [hp]
      show afterParams env params = ([.loadParams], .error e)
      unfold afterParams
      rw [hext]
    constructor
    · rw [hrp]; rfl
    · unfold Script.main
      rw [hrp]
      rfl
  · rw [hext] at hmiss
    simp [isErr] at hmiss

/-- A config that parses to a mapping whose `data_ingestion` entry lacks
`test_size`. -/
def envNoKey : Env :=
  ⟨.ok (.dict [("data_ingestion", .dict [("wrong", .null)])]),
   .ok dfFive, .ok (), .ok (), .ok ()⟩

/-- C6 witness: with `test_size` missing under `data_ingestion`, the run
errors out and never fetches. -/
theorem missing_test_size_no_fetch_witness :
    isErr (runPipeline envNoKey).2 = true
    ∧ ((Script.main envNoKey).1.all (fun ev => !ev.isLoadData)) = true :=
  missing_test_size_no_fetch envNoKey
    (.dict [("data_ingestion", .dict [("wrong", .null)])]) rfl (by rfl)

/-- C8: `main` swallows every pipeline failure: it always returns
normally (so the process exit code stays 0), and on a failure its run
trace is the pipeline's trace followed by logging and printing the
failure's message. -/
theorem main_swallows_errors (env : Env) :
    (Script.main env).2 = .ok ()
    ∧ processExitCode env = 0
    ∧ (isErr (runPipeline env).2 = true →
        (Script.main env).1
          = (runPipeline env).1 ++ [.logError (errOf (runPipeline env).2),
              .printError (errOf (runPipeline env).2)]) := by
  rcases hr : runPipeline env with ⟨tr, r⟩
  rcases r with e | u
  · have hm : Script.main env = (tr ++ [.logError e, .printError e], .ok ()) := by
      unfold Script.main
      rw [hr]
    exact ⟨by rw [hm], by unfold processExitCode; rw [hm], fun _ => by rw [hm]; rfl⟩
  · have hm : Script.main env = (tr, .ok ()) := by
      unfold Script.main
      rw [hr]
    refine ⟨by rw [hm], by unfold processExitCode; rw [hm], fun hcontra => ?_⟩
    exact absurd hcontra Bool.false_ne_true

/-- A run whose config file read fails. -/
def envBadParams : Env :=
  ⟨.error "FileNotFoundError", .ok dfFive, .ok (), .ok (), .ok ()⟩

/-- C8 witness: on a failing run, `main` still returns normally with exit
code 0, having appended the log and print of the failure message. -/
theorem main_swallows_errors_witness :
    (Script.main envBadParams).2 = .ok ()
    ∧ processExitCode envBadParams = 0
    ∧ (Script.main envBadParams).1
        = (runPipeline envBadParams).1
          ++ [.logError (errOf (runPipeline envBadParams).2),
              .printError (errOf (runPipeline envBadParams).2)] :=
  ⟨(main_swallows_errors envBadParams).1,
   (main_swallows_errors envBadParams).2.1,
   (main_swallows_errors envBadParams).2.2 (by rfl)⟩

/-- C10: `save_data` is not atomic: when the write of `test.csv` fails
after `mkdir` and the write of `train.csv` succeeded, the error
propagates, yet `<data_path>/raw/train.csv` has already been written and
remains — nothing is rolled back. -/
theorem save_data_not_atomic (dp e : String) :
    (save_data dp (.ok ()) (.ok ()) (.error e)).2 = .error e
    ∧ (save_data dp (.ok ()) (.ok ()) (.error e)).1
      = [pathJoin (pathJoin dp "raw") "train.csv"] :=
  ⟨rfl, rfl⟩
